import Mathlib

/-!
Verification of the declarative convergence engine in `library/marathon.py`
(an automation module managing applications on a remote Marathon scheduler).

The Python module manipulates JSON documents (parsed with `json.loads`), so the
embedding starts from a deep JSON datatype.  Numbers are modelled by `Rat`
(JSON numbers are ints or floats; Python 2's identification of `bool` with the
integers, and float formatting, are not modelled — no compared document mixes
booleans with numbers).  A Python `dict` is modelled as its list of key/value
pairs (keys of JSON objects are unique); a Python `list` as a `List`.
-/

inductive Json where
  | null
  | bool (b : Bool)
  | num (q : Rat)
  | str (s : String)
  | arr (xs : List Json)
  | obj (kvs : List (String × Json))

-- Structural equality of JSON documents (Python `==` on the results of
-- `json.loads`, except for the unmodelled `bool`/number identification).
mutual

def Json.beq : Json → Json → Bool
  | .null, .null => true
  | .bool x, .bool y => x == y
  | .num x, .num y => x == y
  | .str x, .str y => x == y
  | .arr xs, .arr ys => Json.beqList xs ys
  | .obj ps, .obj qs => Json.beqPairs ps qs
  | _, _ => false
termination_by structural a => a

def Json.beqList : List Json → List Json → Bool
  | [], [] => true
  | x :: xs, y :: ys => Json.beq x y && Json.beqList xs ys
  | _, _ => false
termination_by structural xs => xs

def Json.beqPairs : List (String × Json) → List (String × Json) → Bool
  | [], [] => true
  | (k, v) :: ps, (l, w) :: qs => k == l && Json.beq v w && Json.beqPairs ps qs
  | _, _ => false
termination_by structural ps => ps

end

mutual

theorem Json.beq_iff : ∀ a b : Json, Json.beq a b = true ↔ a = b
  | .null, .null => by simp [Json.beq]
  | .null, .bool _ => by simp [Json.beq]
  | .null, .num _ => by simp [Json.beq]
  | .null, .str _ => by simp [Json.beq]
  | .null, .arr _ => by simp [Json.beq]
  | .null, .obj _ => by simp [Json.beq]
  | .bool _, .null => by simp [Json.beq]
  | .bool x, .bool y => by simp [Json.beq]
  | .bool _, .num _ => by simp [Json.beq]
  | .bool _, .str _ => by simp [Json.beq]
  | .bool _, .arr _ => by simp [Json.beq]
  | .bool _, .obj _ => by simp [Json.beq]
  | .num _, .null => by simp [Json.beq]
  | .num _, .bool _ => by simp [Json.beq]
  | .num x, .num y => by simp [Json.beq]
  | .num _, .str _ => by simp [Json.beq]
  | .num _, .arr _ => by simp [Json.beq]
  | .num _, .obj _ => by simp [Json.beq]
  | .str _, .null => by simp [Json.beq]
  | .str _, .bool _ => by simp [Json.beq]
  | .str _, .num _ => by simp [Json.beq]
  | .str x, .str y => by simp [Json.beq]
  | .str _, .arr _ => by simp [Json.beq]
  | .str _, .obj _ => by simp [Json.beq]
  | .arr _, .null => by simp [Json.beq]
  | .arr _, .bool _ => by simp [Json.beq]
  | .arr _, .num _ => by simp [Json.beq]
  | .arr _, .str _ => by simp [Json.beq]
  | .arr xs, .arr ys => by simp [Json.beq, Json.beqList_iff xs ys]
  | .arr _, .obj _ => by simp [Json.beq]
  | .obj _, .null => by simp [Json.beq]
  | .obj _, .bool _ => by simp [Json.beq]
  | .obj _, .num _ => by simp [Json.beq]
  | .obj _, .str _ => by simp [Json.beq]
  | .obj _, .arr _ => by simp [Json.beq]
  | .obj ps, .obj qs => by simp [Json.beq, Json.beqPairs_iff ps qs]
termination_by structural a => a

theorem Json.beqList_iff : ∀ xs ys : List Json, Json.beqList xs ys = true ↔ xs = ys
  | [], [] => by simp [Json.beqList]
  | [], _ :: _ => by simp [Json.beqList]
  | _ :: _, [] => by simp [Json.beqList]
  | x :: xs, y :: ys => by
    simp [Json.beqList, Json.beq_iff x y, Json.beqList_iff xs ys]
termination_by structural xs => xs

theorem Json.beqPairs_iff : ∀ ps qs : List (String × Json), Json.beqPairs ps qs = true ↔ ps = qs
  | [], [] => by simp [Json.beqPairs]
  | [], _ :: _ => by simp [Json.beqPairs]
  | _ :: _, [] => by simp [Json.beqPairs]
  | (k, v) :: ps, (l, w) :: qs => by
    simp [Json.beqPairs, Json.beq_iff v w, Json.beqPairs_iff ps qs]
termination_by structural ps => ps

end

instance : DecidableEq Json := fun a b => decidable_of_iff _ (Json.beq_iff a b)

/-- Python truthiness of a JSON value (`None`, `False`, `0`, `""`, `[]` and
`{}` are falsy; everything else is truthy). -/
def truthy : Json → Bool
  | .null => false
  | .bool b => b
  | .num q => !(q == 0)
  | .str s => !(s == "")
  | .arr xs => !xs.isEmpty
  | .obj kvs => !kvs.isEmpty

/-- `d.get(k)` on a Python dict: `some v` if the mapping binds `k`, else
`none`.  (On a non-dict Python raises `AttributeError`; the sources only ever
apply `.get` to parsed JSON objects, and the embedding returns `none` there.) -/
def Json.get : Json → String → Option Json
  | .obj kvs, k => (kvs.find? (fun kv => kv.1 == k)).map (fun kv => kv.2)
  | _, _ => none

/-- `d[k]` where the caller has already established that `k` is bound. -/
def jgetD (d : Json) (k : String) : Json := (Json.get d k).getD Json.null

/-- Truthiness of `d.get(k)`: a missing key yields `None`, which is falsy. -/
def truthyOpt : Option Json → Bool
  | none => false
  | some v => truthy v

/-!
### The codomain of `_ordered`

`_ordered` maps a dict to the *sorted list of (key, canonical value) tuples*
and a list to the *sorted list of canonical elements*; scalars are returned
unchanged.  Python tuples are a distinct type from lists (a list of tuples is
never `==` to a list of non-tuples), hence the two separate constructors
`entries` (dict result) and `list` (list result).  Python 2 sorts
heterogeneous values by a fixed total order on types; the embedding fixes the
constructor order below as that total order (which total order is chosen does
not affect any equality judgment between canonical forms).
-/

inductive Canon where
  | null
  | bool (b : Bool)
  | num (q : Rat)
  | str (s : String)
  | list (xs : List Canon)
  | entries (kvs : List (String × Canon))

/-- Three-way comparison induced by a linear order. -/
def lcmp {α : Type _} [LinearOrder α] (x y : α) : Ordering :=
  if x < y then .lt else if y < x then .gt else .eq

theorem lcmp_eq_iff {α : Type _} [LinearOrder α] {x y : α} : lcmp x y = .eq ↔ x = y := by
  unfold lcmp
  split_ifs with h1 h2
  · simp [h1.ne]
  · simp [h2.ne']
  · simp [le_antisymm (le_of_not_lt h2) (le_of_not_lt h1)]

theorem lcmp_lt_iff {α : Type _} [LinearOrder α] {x y : α} : lcmp x y = .lt ↔ x < y := by
  unfold lcmp
  split_ifs with h1 h2
  · simp [h1]
  · simp [asymm h2]
  · simp [h1]

theorem lcmp_swap {α : Type _} [LinearOrder α] (x y : α) : (lcmp x y).swap = lcmp y x := by
  unfold lcmp
  rcases lt_trichotomy x y with h | h | h
  · simp [h, asymm h, Ordering.swap]
  · subst h; simp [lt_irrefl, Ordering.swap]
  · simp [h, asymm h, Ordering.swap]

section ListCmp

variable {α : Type _} (c : α → α → Ordering)

/-- Lexicographic three-way comparison of sequences (Python 2 compares
lists and tuples elementwise, a strict prefix being smaller). -/
def listCmp : List α → List α → Ordering
  | [], [] => .eq
  | [], _ :: _ => .lt
  | _ :: _, [] => .gt
  | x :: xs, y :: ys =>
    match c x y with
    | .eq => listCmp xs ys
    | o => o

variable {c}

theorem listCmp_eq_iff (heq : ∀ a b, c a b = .eq ↔ a = b) :
    ∀ xs ys : List α, listCmp c xs ys = .eq ↔ xs = ys := by
  intro xs
  induction xs with
  | nil => intro ys; cases ys <;> simp [listCmp]
  | cons x xs ih =>
    intro ys
    cases ys with
    | nil => simp [listCmp]
    | cons y ys =>
      have h1 := heq x y
      have h2 := ih ys
      cases h : c x y <;> simp [listCmp, h, ← h1, ← h2]

theorem listCmp_swap (hswap : ∀ a b, (c a b).swap = c b a) :
    ∀ xs ys : List α, (listCmp c xs ys).swap = listCmp c ys xs := by
  intro xs
  induction xs with
  | nil => intro ys; cases ys <;> rfl
  | cons x xs ih =>
    intro ys
    cases ys with
    | nil => rfl
    | cons y ys =>
      simp only [listCmp]
      rw [← hswap x y]
      cases h : c x y <;> simp [h, Ordering.swap, ← ih ys]

theorem listCmp_lt_trans (heq : ∀ a b, c a b = .eq ↔ a = b)
    (htr : ∀ a b d, c a b = .lt → c b d = .lt → c a d = .lt) :
    ∀ xs ys zs : List α,
      listCmp c xs ys = .lt → listCmp c ys zs = .lt → listCmp c xs zs = .lt := by
  intro xs
  induction xs with
  | nil => intro ys zs h1 h2; cases ys <;> cases zs <;> simp_all [listCmp]
  | cons x xs ih =>
    intro ys zs h1 h2
    cases ys with
    | nil => simp [listCmp] at h1
    | cons y ys =>
      cases zs with
      | nil => simp [listCmp] at h2
      | cons z zs =>
        simp only [listCmp] at h1 h2 ⊢
        cases hxy : c x y with
        | gt => rw [hxy] at h1; simp at h1
        | lt =>
          cases hyz : c y z with
          | gt => rw [hyz] at h2; simp at h2
          | lt => rw [htr x y z hxy hyz]
          | eq => rw [← (heq y z).mp hyz, hxy]
        | eq =>
          rw [hxy] at h1
          have hx := (heq x y).mp hxy
          cases hyz : c y z with
          | gt => rw [hyz] at h2; simp at h2
          | lt => rw [hx, hyz]
          | eq =>
            rw [hyz] at h2
            rw [hx, hyz]
            exact ih ys zs h1 h2

end ListCmp

/-- Python 2 string comparison: lexicographic on the character sequence.
(The embedding avoids `String.lt`, whose decision procedure is compiled code;
this definition evaluates inside the kernel.) -/
def strCmp (s t : String) : Ordering := listCmp (fun a b => lcmp a b) s.data t.data

theorem strCmp_eq_iff {s t : String} : strCmp s t = .eq ↔ s = t := by
  unfold strCmp
  rw [listCmp_eq_iff (fun a b => lcmp_eq_iff)]
  exact ⟨fun h => String.ext h, fun h => by rw [h]⟩

theorem strCmp_swap (s t : String) : (strCmp s t).swap = strCmp t s :=
  listCmp_swap (fun a b => lcmp_swap a b) s.data t.data

theorem strCmp_lt_trans (s t u : String) :
    strCmp s t = .lt → strCmp t u = .lt → strCmp s u = .lt :=
  listCmp_lt_trans (fun a b => lcmp_eq_iff)
    (fun a b d h1 h2 => lcmp_lt_iff.mpr (lt_trans (lcmp_lt_iff.mp h1) (lcmp_lt_iff.mp h2)))
    s.data t.data u.data

-- Comparison of canonical values, mirroring the total order Python 2's
-- `sorted` uses on the values produced by `_ordered`: values of distinct
-- types are ordered by a fixed type order; numbers, strings and booleans by
-- their natural order; lists and tuple-lists lexicographically.
mutual

def Canon.cmp : Canon → Canon → Ordering
  | .null, .null => .eq
  | .null, .bool _ => .lt
  | .null, .num _ => .lt
  | .null, .str _ => .lt
  | .null, .list _ => .lt
  | .null, .entries _ => .lt
  | .bool _, .null => .gt
  | .bool x, .bool y => lcmp x y
  | .bool _, .num _ => .lt
  | .bool _, .str _ => .lt
  | .bool _, .list _ => .lt
  | .bool _, .entries _ => .lt
  | .num _, .null => .gt
  | .num _, .bool _ => .gt
  | .num x, .num y => lcmp x y
  | .num _, .str _ => .lt
  | .num _, .list _ => .lt
  | .num _, .entries _ => .lt
  | .str _, .null => .gt
  | .str _, .bool _ => .gt
  | .str _, .num _ => .gt
  | .str x, .str y => strCmp x y
  | .str _, .list _ => .lt
  | .str _, .entries _ => .lt
  | .list _, .null => .gt
  | .list _, .bool _ => .gt
  | .list _, .num _ => .gt
  | .list _, .str _ => .gt
  | .list xs, .list ys => Canon.cmpList xs ys
  | .list _, .entries _ => .lt
  | .entries _, .null => .gt
  | .entries _, .bool _ => .gt
  | .entries _, .num _ => .gt
  | .entries _, .str _ => .gt
  | .entries _, .list _ => .gt
  | .entries ps, .entries qs => Canon.cmpPairs ps qs
termination_by structural a => a

def Canon.cmpList : List Canon → List Canon → Ordering
  | [], [] => .eq
  | [], _ :: _ => .lt
  | _ :: _, [] => .gt
  | x :: xs, y :: ys =>
    match Canon.cmp x y with
    | .eq => Canon.cmpList xs ys
    | o => o
termination_by structural xs => xs

def Canon.cmpPairs : List (String × Canon) → List (String × Canon) → Ordering
  | [], [] => .eq
  | [], _ :: _ => .lt
  | _ :: _, [] => .gt
  | (k, v) :: ps, (l, w) :: qs =>
    match strCmp k l with
    | .eq =>
      match Canon.cmp v w with
      | .eq => Canon.cmpPairs ps qs
      | o => o
    | o => o
termination_by structural ps => ps

end

mutual

theorem Canon.cmp_eq_iff : ∀ a b : Canon, Canon.cmp a b = .eq ↔ a = b
  | .null, .null => by simp [Canon.cmp]
  | .null, .bool _ => by simp [Canon.cmp]
  | .null, .num _ => by simp [Canon.cmp]
  | .null, .str _ => by simp [Canon.cmp]
  | .null, .list _ => by simp [Canon.cmp]
  | .null, .entries _ => by simp [Canon.cmp]
  | .bool _, .null => by simp [Canon.cmp]
  | .bool x, .bool y => by simp [Canon.cmp, lcmp_eq_iff]
  | .bool _, .num _ => by simp [Canon.cmp]
  | .bool _, .str _ => by simp [Canon.cmp]
  | .bool _, .list _ => by simp [Canon.cmp]
  | .bool _, .entries _ => by simp [Canon.cmp]
  | .num _, .null => by simp [Canon.cmp]
  | .num _, .bool _ => by simp [Canon.cmp]
  | .num x, .num y => by simp [Canon.cmp, lcmp_eq_iff]
  | .num _, .str _ => by simp [Canon.cmp]
  | .num _, .list _ => by simp [Canon.cmp]
  | .num _, .entries _ => by simp [Canon.cmp]
  | .str _, .null => by simp [Canon.cmp]
  | .str _, .bool _ => by simp [Canon.cmp]
  | .str _, .num _ => by simp [Canon.cmp]
  | .str x, .str y => by simp [Canon.cmp, strCmp_eq_iff]
  | .str _, .list _ => by simp [Canon.cmp]
  | .str _, .entries _ => by simp [Canon.cmp]
  | .list _, .null => by simp [Canon.cmp]
  | .list _, .bool _ => by simp [Canon.cmp]
  | .list _, .num _ => by simp [Canon.cmp]
  | .list _, .str _ => by simp [Canon.cmp]
  | .list xs, .list ys => by simp [Canon.cmp, Canon.cmpList_eq_iff xs ys]
  | .list _, .entries _ => by simp [Canon.cmp]
  | .entries _, .null => by simp [Canon.cmp]
  | .entries _, .bool _ => by simp [Canon.cmp]
  | .entries _, .num _ => by simp [Canon.cmp]
  | .entries _, .str _ => by simp [Canon.cmp]
  | .entries _, .list _ => by simp [Canon.cmp]
  | .entries ps, .entries qs => by simp [Canon.cmp, Canon.cmpPairs_eq_iff ps qs]
termination_by structural a => a

theorem Canon.cmpList_eq_iff : ∀ xs ys : List Canon, Canon.cmpList xs ys = .eq ↔ xs = ys
  | [], [] => by simp [Canon.cmpList]
  | [], _ :: _ => by simp [Canon.cmpList]
  | _ :: _, [] => by simp [Canon.cmpList]
  | x :: xs, y :: ys => by
    have hiff := Canon.cmp_eq_iff x y
    have hiff2 := Canon.cmpList_eq_iff xs ys
    cases h : Canon.cmp x y <;> simp [Canon.cmpList, h, ← hiff, ← hiff2]
termination_by structural xs => xs

theorem Canon.cmpPairs_eq_iff :
    ∀ ps qs : List (String × Canon), Canon.cmpPairs ps qs = .eq ↔ ps = qs
  | [], [] => by simp [Canon.cmpPairs]
  | [], _ :: _ => by simp [Canon.cmpPairs]
  | _ :: _, [] => by simp [Canon.cmpPairs]
  | (k, v) :: ps, (l, w) :: qs => by
    have hiffv := Canon.cmp_eq_iff v w
    have hiffp := Canon.cmpPairs_eq_iff ps qs
    have hiffk := @strCmp_eq_iff k l
    cases hk : strCmp k l <;> cases hv : Canon.cmp v w <;>
      simp [Canon.cmpPairs, hk, hv, ← hiffv, ← hiffp, ← hiffk]
termination_by structural ps => ps

end

mutual

theorem Canon.cmp_swap : ∀ a b : Canon, (Canon.cmp a b).swap = Canon.cmp b a
  | .null, .null => rfl
  | .null, .bool _ => rfl
  | .null, .num _ => rfl
  | .null, .str _ => rfl
  | .null, .list _ => rfl
  | .null, .entries _ => rfl
  | .bool _, .null => rfl
  | .bool x, .bool y => lcmp_swap x y
  | .bool _, .num _ => rfl
  | .bool _, .str _ => rfl
  | .bool _, .list _ => rfl
  | .bool _, .entries _ => rfl
  | .num _, .null => rfl
  | .num _, .bool _ => rfl
  | .num x, .num y => lcmp_swap x y
  | .num _, .str _ => rfl
  | .num _, .list _ => rfl
  | .num _, .entries _ => rfl
  | .str _, .null => rfl
  | .str _, .bool _ => rfl
  | .str _, .num _ => rfl
  | .str x, .str y => strCmp_swap x y
  | .str _, .list _ => rfl
  | .str _, .entries _ => rfl
  | .list _, .null => rfl
  | .list _, .bool _ => rfl
  | .list _, .num _ => rfl
  | .list _, .str _ => rfl
  | .list xs, .list ys => Canon.cmpList_swap xs ys
  | .list _, .entries _ => rfl
  | .entries _, .null => rfl
  | .entries _, .bool _ => rfl
  | .entries _, .num _ => rfl
  | .entries _, .str _ => rfl
  | .entries _, .list _ => rfl
  | .entries ps, .entries qs => Canon.cmpPairs_swap ps qs
termination_by structural a => a

theorem Canon.cmpList_swap : ∀ xs ys : List Canon, (Canon.cmpList xs ys).swap = Canon.cmpList ys xs
  | [], [] => rfl
  | [], _ :: _ => rfl
  | _ :: _, [] => rfl
  | x :: xs, y :: ys => by
    have h1 := Canon.cmp_swap x y
    have h2 := Canon.cmpList_swap xs ys
    simp only [Canon.cmpList]
    rw [← h1]
    cases h : Canon.cmp x y <;> simp [h, Ordering.swap, ← h2]
termination_by structural xs => xs

theorem Canon.cmpPairs_swap :
    ∀ ps qs : List (String × Canon), (Canon.cmpPairs ps qs).swap = Canon.cmpPairs qs ps
  | [], [] => rfl
  | [], _ :: _ => rfl
  | _ :: _, [] => rfl
  | (k, v) :: ps, (l, w) :: qs => by
    have h0 := strCmp_swap k l
    have h1 := Canon.cmp_swap v w
    have h2 := Canon.cmpPairs_swap ps qs
    simp only [Canon.cmpPairs]
    rw [← h0, ← h1]
    cases hk : strCmp k l <;> cases hv : Canon.cmp v w <;>
      simp [hk, hv, Ordering.swap, ← h2]
termination_by structural ps => ps

end

mutual

theorem Canon.cmp_lt_trans :
    ∀ a b c : Canon, Canon.cmp a b = .lt → Canon.cmp b c = .lt → Canon.cmp a c = .lt
  | .null, b, c, h1, h2 => by
    cases b <;> cases c <;> simp_all [Canon.cmp]
  | .bool x, b, c, h1, h2 => by
    cases b <;> cases c <;> simp_all [Canon.cmp, lcmp_lt_iff] <;>
      exact lt_trans (by assumption) (by assumption)
  | .num x, b, c, h1, h2 => by
    cases b <;> cases c <;> simp_all [Canon.cmp, lcmp_lt_iff] <;>
      exact lt_trans (by assumption) (by assumption)
  | .str x, b, c, h1, h2 => by
    cases b <;> cases c <;> simp_all [Canon.cmp] <;>
      exact strCmp_lt_trans _ _ _ (by assumption) (by assumption)
  | .list xs, b, c, h1, h2 => by
    cases b <;> cases c <;> simp_all [Canon.cmp] <;>
      exact Canon.cmpList_lt_trans xs _ _ (by assumption) (by assumption)
  | .entries ps, b, c, h1, h2 => by
    cases b <;> cases c <;> simp_all [Canon.cmp] <;>
      exact Canon.cmpPairs_lt_trans ps _ _ (by assumption) (by assumption)
termination_by structural a => a

theorem Canon.cmpList_lt_trans :
    ∀ xs ys zs : List Canon,
      Canon.cmpList xs ys = .lt → Canon.cmpList ys zs = .lt → Canon.cmpList xs zs = .lt
  | [], ys, zs, h1, h2 => by cases ys <;> cases zs <;> simp_all [Canon.cmpList]
  | _ :: _, [], _, h1, _ => by simp [Canon.cmpList] at h1
  | _ :: _, _ :: _, [], _, h2 => by simp [Canon.cmpList] at h2
  | x :: xs, y :: ys, z :: zs, h1, h2 => by
    simp only [Canon.cmpList] at h1 h2 ⊢
    cases hxy : Canon.cmp x y with
    | gt => rw [hxy] at h1; simp at h1
    | lt =>
      cases hyz : Canon.cmp y z with
      | gt => rw [hyz] at h2; simp at h2
      | lt => rw [Canon.cmp_lt_trans x y z hxy hyz]
      | eq => rw [← (Canon.cmp_eq_iff y z).mp hyz, hxy]
    | eq =>
      rw [hxy] at h1
      have hx := (Canon.cmp_eq_iff x y).mp hxy
      cases hyz : Canon.cmp y z with
      | gt => rw [hyz] at h2; simp at h2
      | lt => rw [hx, hyz]
      | eq =>
        rw [hyz] at h2
        rw [hx, hyz]
        exact Canon.cmpList_lt_trans xs ys zs h1 h2
termination_by structural xs => xs

theorem Canon.cmpPairs_lt_trans :
    ∀ ps qs rs : List (String × Canon),
      Canon.cmpPairs ps qs = .lt → Canon.cmpPairs qs rs = .lt → Canon.cmpPairs ps rs = .lt
  | [], qs, rs, h1, h2 => by
    cases qs <;> cases rs <;> simp_all [Canon.cmpPairs]
  | _ :: _, [], _, h1, _ => by simp [Canon.cmpPairs] at h1
  | _ :: _, _ :: _, [], _, h2 => by simp [Canon.cmpPairs] at h2
  | (k, v) :: ps, (l, w) :: qs, (m, u) :: rs, h1, h2 => by
    simp only [Canon.cmpPairs] at h1 h2 ⊢
    cases hkl : strCmp k l with
    | gt => rw [hkl] at h1; simp at h1
    | lt =>
      cases hlm : strCmp l m with
      | gt => rw [hlm] at h2; simp at h2
      | lt =>
        rw [strCmp_lt_trans k l m hkl hlm]
      | eq => rw [← strCmp_eq_iff.mp hlm, hkl]
    | eq =>
      rw [hkl] at h1
      have hk := strCmp_eq_iff.mp hkl
      cases hlm : strCmp l m with
      | gt => rw [hlm] at h2; simp at h2
      | lt => rw [hk, hlm]
      | eq =>
        rw [hlm] at h2
        rw [hk, hlm]
        cases hvw : Canon.cmp v w with
        | gt => rw [hvw] at h1; simp at h1
        | lt =>
          cases hwu : Canon.cmp w u with
          | gt => rw [hwu] at h2; simp at h2
          | lt => rw [Canon.cmp_lt_trans v w u hvw hwu]
          | eq => rw [← (Canon.cmp_eq_iff w u).mp hwu, hvw]
        | eq =>
          rw [hvw] at h1
          have hv := (Canon.cmp_eq_iff v w).mp hvw
          cases hwu : Canon.cmp w u with
          | gt => rw [hwu] at h2; simp at h2
          | lt => rw [hv, hwu]
          | eq =>
            rw [hwu] at h2
            rw [hv, hwu]
            exact Canon.cmpPairs_lt_trans ps qs rs h1 h2
termination_by structural ps => ps

end

instance : DecidableEq Canon := fun a b => decidable_of_iff _ (Canon.cmp_eq_iff a b)

section CmpLaws

variable {α : Type _} {c : α → α → Ordering}

/-- The non-strict relation of a three-way comparison. -/
def cmpLe (c : α → α → Ordering) (a b : α) : Prop := c a b ≠ .gt

instance (c : α → α → Ordering) : DecidableRel (cmpLe c) := fun a b => by
  unfold cmpLe; infer_instance

theorem cmpLe_total (hswap : ∀ a b, (c a b).swap = c b a) (a b : α) :
    cmpLe c a b ∨ cmpLe c b a := by
  unfold cmpLe
  by_cases h : c a b = .gt
  · right; rw [← hswap a b, h]; simp [Ordering.swap]
  · left; exact h

theorem cmpLe_trans (heq : ∀ a b, c a b = .eq ↔ a = b)
    (htr : ∀ a b d, c a b = .lt → c b d = .lt → c a d = .lt) :
    ∀ a b d : α, cmpLe c a b → cmpLe c b d → cmpLe c a d := by
  intro a b d h1 h2
  unfold cmpLe at h1 h2 ⊢
  cases hab : c a b with
  | gt => exact absurd hab h1
  | eq => rw [(heq a b).mp hab]; exact h2
  | lt =>
    cases hbd : c b d with
    | gt => exact absurd hbd h2
    | eq => rw [← (heq b d).mp hbd, hab]; simp
    | lt => rw [htr a b d hab hbd]; simp

theorem cmpLe_antisymm (heq : ∀ a b, c a b = .eq ↔ a = b)
    (hswap : ∀ a b, (c a b).swap = c b a) (a b : α)
    (h1 : cmpLe c a b) (h2 : cmpLe c b a) : a = b := by
  unfold cmpLe at h1 h2
  cases hab : c a b with
  | eq => exact (heq a b).mp hab
  | gt => exact absurd hab h1
  | lt =>
    have hba : c b a = .gt := by rw [← hswap a b, hab]; rfl
    exact absurd hba h2

end CmpLaws

/-- Python 2 comparison of `(key, value)` tuples: lexicographic, keys first. -/
def pairCmp (p q : String × Canon) : Ordering :=
  match strCmp p.1 q.1 with
  | .eq => Canon.cmp p.2 q.2
  | o => o

theorem pairCmp_eq_iff : ∀ p q : String × Canon, pairCmp p q = .eq ↔ p = q := by
  rintro ⟨k, v⟩ ⟨l, w⟩
  have hk := @strCmp_eq_iff k l
  have hv := Canon.cmp_eq_iff v w
  cases h : strCmp k l <;> simp [pairCmp, h, ← hk, ← hv, Prod.ext_iff]

theorem pairCmp_swap : ∀ p q : String × Canon, (pairCmp p q).swap = pairCmp q p := by
  rintro ⟨k, v⟩ ⟨l, w⟩
  simp only [pairCmp]
  rw [← strCmp_swap k l, ← Canon.cmp_swap v w]
  cases h : strCmp k l <;> simp [h, Ordering.swap]

theorem pairCmp_lt_trans :
    ∀ p q r : String × Canon, pairCmp p q = .lt → pairCmp q r = .lt → pairCmp p r = .lt := by
  rintro ⟨k, v⟩ ⟨l, w⟩ ⟨m, u⟩ h1 h2
  simp only [pairCmp] at h1 h2 ⊢
  cases hkl : strCmp k l with
  | gt => rw [hkl] at h1; simp at h1
  | lt =>
    cases hlm : strCmp l m with
    | gt => rw [hlm] at h2; simp at h2
    | lt => rw [strCmp_lt_trans k l m hkl hlm]
    | eq => rw [← strCmp_eq_iff.mp hlm, hkl]
  | eq =>
    rw [hkl] at h1
    rw [strCmp_eq_iff.mp hkl]
    cases hlm : strCmp l m with
    | gt => rw [hlm] at h2; simp at h2
    | lt => rfl
    | eq =>
      rw [hlm] at h2
      exact Canon.cmp_lt_trans v w u h1 h2

/-- The order used by `sorted` on a heterogeneous list of canonical values. -/
def canonR : Canon → Canon → Prop := cmpLe Canon.cmp

/-- The order used by `sorted` on a dict's `(key, value)` tuples. -/
def pairR : String × Canon → String × Canon → Prop := cmpLe pairCmp

instance : DecidableRel canonR := fun a b => by unfold canonR; infer_instance

instance : DecidableRel pairR := fun a b => by unfold pairR; infer_instance

instance : IsTotal Canon canonR := ⟨cmpLe_total Canon.cmp_swap⟩

instance : IsTrans Canon canonR := ⟨cmpLe_trans Canon.cmp_eq_iff Canon.cmp_lt_trans⟩

instance : IsAntisymm Canon canonR := ⟨cmpLe_antisymm Canon.cmp_eq_iff Canon.cmp_swap⟩

instance : IsTotal (String × Canon) pairR := ⟨cmpLe_total pairCmp_swap⟩

instance : IsTrans (String × Canon) pairR := ⟨cmpLe_trans pairCmp_eq_iff pairCmp_lt_trans⟩

instance : IsAntisymm (String × Canon) pairR := ⟨cmpLe_antisymm pairCmp_eq_iff pairCmp_swap⟩

/-- Python `sorted` on a list of canonical values. -/
def sortCanon (l : List Canon) : List Canon := List.insertionSort canonR l

/-- Python `sorted` on a dict's list of `(key, canonical value)` tuples. -/
def sortPairs (l : List (String × Canon)) : List (String × Canon) := List.insertionSort pairR l

theorem sortCanon_perm_eq {l1 l2 : List Canon} (h : List.Perm l1 l2) :
    sortCanon l1 = sortCanon l2 :=
  List.eq_of_perm_of_sorted
    ((List.perm_insertionSort canonR l1).trans (h.trans (List.perm_insertionSort canonR l2).symm))
    (List.sorted_insertionSort canonR l1) (List.sorted_insertionSort canonR l2)

theorem sortPairs_perm_eq {l1 l2 : List (String × Canon)} (h : List.Perm l1 l2) :
    sortPairs l1 = sortPairs l2 :=
  List.eq_of_perm_of_sorted
    ((List.perm_insertionSort pairR l1).trans (h.trans (List.perm_insertionSort pairR l2).symm))
    (List.sorted_insertionSort pairR l1) (List.sorted_insertionSort pairR l2)

/-!
### `MarathonAppManager._ordered`

```python
if isinstance(obj, dict):
    return sorted((k, MarathonAppManager._ordered(v)) for k, v in obj.items())
if isinstance(obj, list):
    return sorted(MarathonAppManager._ordered(x) for x in obj)
else:
    return obj
```
-/

mutual

def ordered : Json → Canon
  | .null => .null
  | .bool b => .bool b
  | .num q => .num q
  | .str s => .str s
  | .arr xs => .list (sortCanon (orderedList xs))
  | .obj kvs => .entries (sortPairs (orderedPairs kvs))
termination_by structural j => j

def orderedList : List Json → List Canon
  | [] => []
  | x :: xs => ordered x :: orderedList xs
termination_by structural xs => xs

def orderedPairs : List (String × Json) → List (String × Canon)
  | [] => []
  | (k, v) :: ps => (k, ordered v) :: orderedPairs ps
termination_by structural ps => ps

end

theorem orderedList_eq_map (xs : List Json) : orderedList xs = xs.map ordered := by
  induction xs with
  | nil => rfl
  | cons x xs ih => simp [orderedList, ih]

theorem orderedPairs_eq_map (ps : List (String × Json)) :
    orderedPairs ps = ps.map (fun p => (p.1, ordered p.2)) := by
  induction ps with
  | nil => rfl
  | cons p ps ih => rcases p with ⟨k, v⟩; simp [orderedPairs, ih]

-- sanity: canonicalization is computable down to `decide`/`rfl`
theorem ordered_example_swap :
    ordered (.obj [("a", .num 1), ("b", .num 2)]) = ordered (.obj [("b", .num 2), ("a", .num 1)]) := by
  decide

/-!
### Reordering equivalence

`OrderEq a b` holds when the only difference between the documents `a` and `b`
is the ordering of keys in mappings or the ordering of elements in otherwise
structurally-identical sequences.
-/

mutual

def OrderEq : Json → Json → Prop
  | .null, .null => True
  | .bool x, .bool y => x = y
  | .num x, .num y => x = y
  | .str x, .str y => x = y
  | .arr xs, .arr ys => ∃ zs, OrderEqList xs zs ∧ List.Perm zs ys
  | .obj ps, .obj qs => ∃ rs, OrderEqPairs ps rs ∧ List.Perm rs qs
  | _, _ => False
termination_by structural a => a

def OrderEqList : List Json → List Json → Prop
  | [], [] => True
  | x :: xs, y :: ys => OrderEq x y ∧ OrderEqList xs ys
  | _, _ => False
termination_by structural xs => xs

def OrderEqPairs : List (String × Json) → List (String × Json) → Prop
  | [], [] => True
  | (k, v) :: ps, (l, w) :: qs => k = l ∧ OrderEq v w ∧ OrderEqPairs ps qs
  | _, _ => False
termination_by structural ps => ps

end

mutual

theorem orderEq_ordered : ∀ a b : Json, OrderEq a b → ordered a = ordered b
  | .null, .null, _ => rfl
  | .null, .bool _, h => False.elim h
  | .null, .num _, h => False.elim h
  | .null, .str _, h => False.elim h
  | .null, .arr _, h => False.elim h
  | .null, .obj _, h => False.elim h
  | .bool _, .null, h => False.elim h
  | .bool x, .bool y, h => by rw [show x = y from h]
  | .bool _, .num _, h => False.elim h
  | .bool _, .str _, h => False.elim h
  | .bool _, .arr _, h => False.elim h
  | .bool _, .obj _, h => False.elim h
  | .num _, .null, h => False.elim h
  | .num _, .bool _, h => False.elim h
  | .num x, .num y, h => by rw [show x = y from h]
  | .num _, .str _, h => False.elim h
  | .num _, .arr _, h => False.elim h
  | .num _, .obj _, h => False.elim h
  | .str _, .null, h => False.elim h
  | .str _, .bool _, h => False.elim h
  | .str _, .num _, h => False.elim h
  | .str x, .str y, h => by rw [show x = y from h]
  | .str _, .arr _, h => False.elim h
  | .str _, .obj _, h => False.elim h
  | .arr _, .null, h => False.elim h
  | .arr _, .bool _, h => False.elim h
  | .arr _, .num _, h => False.elim h
  | .arr _, .str _, h => False.elim h
  | .arr xs, .arr ys, h => by
    obtain ⟨zs, hl, hp⟩ := h
    have e1 : orderedList xs = orderedList zs := orderEqList_ordered xs zs hl
    have e2 : List.Perm (orderedList zs) (orderedList ys) := by
      rw [orderedList_eq_map, orderedList_eq_map]
      exact hp.map ordered
    simp only [ordered]
    rw [e1, sortCanon_perm_eq e2]
  | .arr _, .obj _, h => False.elim h
  | .obj _, .null, h => False.elim h
  | .obj _, .bool _, h => False.elim h
  | .obj _, .num _, h => False.elim h
  | .obj _, .str _, h => False.elim h
  | .obj _, .arr _, h => False.elim h
  | .obj ps, .obj qs, h => by
    obtain ⟨rs, hl, hp⟩ := h
    have e1 : orderedPairs ps = orderedPairs rs := orderEqPairs_ordered ps rs hl
    have e2 : List.Perm (orderedPairs rs) (orderedPairs qs) := by
      rw [orderedPairs_eq_map, orderedPairs_eq_map]
      exact hp.map (fun p => (p.1, ordered p.2))
    simp only [ordered]
    rw [e1, sortPairs_perm_eq e2]
termination_by structural a => a

theorem orderEqList_ordered :
    ∀ xs ys : List Json, OrderEqList xs ys → orderedList xs = orderedList ys
  | [], [], _ => rfl
  | [], _ :: _, h => False.elim h
  | _ :: _, [], h => False.elim h
  | x :: xs, y :: ys, h => by
    simp only [orderedList]
    rw [orderEq_ordered x y h.1, orderEqList_ordered xs ys h.2]
termination_by structural xs => xs

theorem orderEqPairs_ordered :
    ∀ ps qs : List (String × Json), OrderEqPairs ps qs → orderedPairs ps = orderedPairs qs
  | [], [], _ => rfl
  | [], _ :: _, h => False.elim h
  | _ :: _, [], h => False.elim h
  | (k, v) :: ps, (l, w) :: qs, h => by
    obtain ⟨hk, hv, hps⟩ := h
    simp only [orderedPairs]
    rw [hk, orderEq_ordered v w hv, orderEqPairs_ordered ps qs hps]
termination_by structural ps => ps

end

/-!
### `_get_nested_dict` and `_clean_json_objects_for_update`
-/

/-- `reduce(lambda d, key: d.get(key) if d else None, keys, dictionary)`:
walk the keychain, yielding `None` as soon as the accumulator is falsy. -/
def get_nested_dict (dictionary : Json) (keys : List String) : Option Json :=
  keys.foldl
    (fun d key =>
      match d with
      | some o => if truthy o then Json.get o key else none
      | none => none)
    (some dictionary)

/-- One port-mapping entry of the cleaning pass:
`if match.get('servicePort'): del match['servicePort']`.
The `del` fires only when the `servicePort` value is *truthy*; a falsy value
such as `0` is kept. -/
def cleanMapping (m : Json) : Json :=
  match m with
  | .obj kvs =>
    if truthyOpt (Json.get (.obj kvs) "servicePort") then
      .obj (kvs.filter (fun kv => !(kv.1 == "servicePort")))
    else
      .obj kvs
  | m => m

/-- Replace the value bound at key `k` of a mapping (models the in-place
mutation performed through the alias returned by `_get_nested_dict`). -/
def jset (d : Json) (k : String) (v : Json) : Json :=
  match d with
  | .obj kvs => .obj (kvs.map (fun kv => if kv.1 == k then (kv.1, v) else kv))
  | d => d

/-- The keychain of `MarathonAppManager.UPDATE_IGNORE['servicePort']`. -/
def UPDATE_IGNORE_servicePort : List String := ["container", "docker", "portMappings"]

/-- `MarathonAppManager._clean_json_objects_for_update` as a pure function on
the document (the Python code mutates `dictionary` in place and returns
`None`).  When the nested port-mapping list is present and truthy, every
mapping in it loses its truthy `servicePort`; otherwise the document is
unchanged.  (Were the nested value truthy but not a list of dicts, Python
would raise while iterating; the compared documents keep this chain
well-typed, and the embedding leaves such documents unchanged.) -/
def clean_json_objects_for_update (dictionary : Json) : Json :=
  match get_nested_dict dictionary UPDATE_IGNORE_servicePort with
  | some (Json.arr ms) =>
    if truthy (.arr ms) then
      match Json.get dictionary "container" with
      | some c =>
        match Json.get c "docker" with
        | some dk =>
          jset dictionary "container"
            (jset c "docker" (jset dk "portMappings" (.arr (ms.map cleanMapping))))
        | none => dictionary
      | none => dictionary
    else dictionary
  | _ => dictionary

/-!
### `_compare_json_deployments`
-/

/-- Modelled from the spec: the fixed set of "update-relevant attributes" is
`marathon.MarathonApp.UPDATE_OK_ATTRIBUTES` of the external Marathon client
library, which is not part of this repository.  The claims below depend only
on `instances` and `container` belonging to the set; theorems about arbitrary
attribute sets take the set as a parameter. -/
def UPDATE_OK_ATTRIBUTES : List String :=
  ["args", "backoff_factor", "backoff_seconds", "cmd", "constraints", "container",
   "cpus", "dependencies", "disk", "env", "executor", "health_checks", "instances",
   "labels", "max_launch_delay_seconds", "mem", "ports", "require_ports",
   "store_urls", "upgrade_strategy", "uris", "user"]

/-- The attribute loop of `_compare_json_deployments`:
`if d1.get(item) and d2.get(item) and _ordered(d1[item]) != _ordered(d2[item]):
return False`, and `True` once the loop finishes. -/
def compare_loop (d1 d2 : Json) : List String → Bool
  | [] => true
  | item :: rest =>
    if truthyOpt (Json.get d1 item) = true ∧ truthyOpt (Json.get d2 item) = true
        ∧ ordered (jgetD d1 item) ≠ ordered (jgetD d2 item) then
      false
    else
      compare_loop d1 d2 rest

/-- `MarathonAppManager._compare_json_deployments`: deep-copy both documents
(implicit here — the embedding is pure), clean both, then run the attribute
loop over the library's update-relevant attribute set `attrs`. -/
def compare_json_deployments (attrs : List String) (d1 d2 : Json) : Bool :=
  compare_loop (clean_json_objects_for_update d1) (clean_json_objects_for_update d2) attrs

theorem compare_loop_self (d : Json) : ∀ attrs : List String, compare_loop d d attrs = true := by
  intro attrs
  induction attrs with
  | nil => rfl
  | cons item rest ih => simp [compare_loop, ih]

theorem compare_loop_false {d1 d2 : Json} {item : String} (attrs : List String)
    (hmem : item ∈ attrs)
    (h1 : truthyOpt (Json.get d1 item) = true)
    (h2 : truthyOpt (Json.get d2 item) = true)
    (hne : ordered (jgetD d1 item) ≠ ordered (jgetD d2 item)) :
    compare_loop d1 d2 attrs = false := by
  induction attrs with
  | nil => cases hmem
  | cons a rest ih =>
    rcases List.mem_cons.mp hmem with rfl | hmem'
    · simp [compare_loop, h1, h2, hne]
    · by_cases hc : truthyOpt (Json.get d1 a) = true ∧ truthyOpt (Json.get d2 a) = true
          ∧ ordered (jgetD d1 a) ≠ ordered (jgetD d2 a)
      · simp [compare_loop, hc]
      · simp only [compare_loop, if_neg hc]
        exact ih hmem'

/-!
### `AppStatuses` and `MarathonAppManager._sync_app_status`

```python
if status == AppStatuses.APP_DEPLOYED:
    while self._get_app_info().tasks_running == 0 and attempts > 0:
        time.sleep(wait_seconds)
        attempts -= 1
elif status == AppStatuses.APP_NOT_PRESENT:
    while self._get_app_info() and attempts > 0:
        time.sleep(wait_seconds)
        attempts -= 1
if attempts == 0:
    raise Exception("Error while waiting for application to be in state {}".format(status))
```

The scheduler is modelled by the stream `reads i` of results of the `i`-th
`_get_app_info()` poll (`none` is the not-found case).  `time.sleep` has no
observable effect in the embedding.  Each evaluation of a loop condition
performs exactly one poll, including the final evaluation that exits the loop;
the poll count is returned alongside the outcome.
-/

/-- The client's view of a live application: the JSON document its `to_json`
renders, and the `tasks_running` status counter. -/
structure AppInfo where
  doc : Json
  tasks_running : Nat
deriving DecidableEq

def APP_DEPLOYED : Nat := 0

def APP_NOT_PRESENT : Nat := 1

/-- The message of the exception raised on an exhausted attempt budget.
It interpolates only the numeric status constant. -/
def sync_error_message (status : Nat) : String :=
  "Error while waiting for application to be in state " ++ toString status

/-- Result of one polling loop: `crashed` models the `AttributeError` raised
by dereferencing `.tasks_running` on `None`; `finished` carries the remaining
attempt budget and the number of polls made. -/
inductive SyncRes where
  | crashed (checks : Nat)
  | finished (attemptsLeft : Nat) (checks : Nat)
deriving DecidableEq

/-- The `APP_DEPLOYED` loop.  Note the loop condition dereferences
`self._get_app_info().tasks_running` without guarding against `None`, and is
evaluated once more (with one more poll) when the budget reaches zero. -/
def sync_deployed_go (reads : Nat → Option AppInfo) (checks : Nat) : Nat → SyncRes
  | 0 =>
    match reads checks with
    | none => .crashed (checks + 1)
    | some _ => .finished 0 (checks + 1)
  | att + 1 =>
    match reads checks with
    | none => .crashed (checks + 1)
    | some a =>
      if a.tasks_running = 0 then sync_deployed_go reads (checks + 1) att
      else .finished (att + 1) (checks + 1)

/-- The `APP_NOT_PRESENT` loop (its condition needs no dereference). -/
def sync_absent_go (reads : Nat → Option AppInfo) (checks : Nat) : Nat → SyncRes
  | 0 => .finished 0 (checks + 1)
  | att + 1 =>
    if (reads checks).isSome then sync_absent_go reads (checks + 1) att
    else .finished (att + 1) (checks + 1)

inductive SyncOutcome where
  | ok
  | timeout (msg : String)
  | noneDeref
deriving DecidableEq

/-- `_sync_app_status` with the poll stream made explicit; returns the outcome
together with the number of `_get_app_info()` calls performed. -/
def sync_app_status (reads : Nat → Option AppInfo) (status : Nat) (attempts : Nat) :
    SyncOutcome × Nat :=
  let r :=
    if status = APP_DEPLOYED then sync_deployed_go reads 0 attempts
    else if status = APP_NOT_PRESENT then sync_absent_go reads 0 attempts
    else .finished attempts 0
  match r with
  | .crashed c => (.noneDeref, c)
  | .finished att c =>
    if att = 0 then (.timeout (sync_error_message status), c) else (.ok, c)

theorem sync_deployed_go_unsat (reads : Nat → Option AppInfo)
    (h : ∀ i, Option.map (fun a => a.tasks_running) (reads i) = some 0) :
    ∀ att i, sync_deployed_go reads i att = .finished 0 (i + att + 1) := by
  intro att
  induction att with
  | zero =>
    intro i
    have hi := h i
    cases hr : reads i with
    | none => rw [hr] at hi; simp at hi
    | some a => simp [sync_deployed_go, hr]
  | succ att ih =>
    intro i
    have hi := h i
    cases hr : reads i with
    | none => rw [hr] at hi; simp at hi
    | some a =>
      have ha : a.tasks_running = 0 := by rw [hr] at hi; simpa using hi
      have step : sync_deployed_go reads i (att + 1) = sync_deployed_go reads (i + 1) att := by
        simp [sync_deployed_go, hr, ha]
      rw [step, ih (i + 1)]
      congr 1
      omega

theorem sync_absent_go_unsat (reads : Nat → Option AppInfo)
    (h : ∀ i, (reads i).isSome = true) :
    ∀ att i, sync_absent_go reads i att = .finished 0 (i + att + 1) := by
  intro att
  induction att with
  | zero => intro i; simp [sync_absent_go]
  | succ att ih =>
    intro i
    have step : sync_absent_go reads i (att + 1) = sync_absent_go reads (i + 1) att := by
      simp [sync_absent_go, h i]
    rw [step, ih (i + 1)]
    congr 1
    omega

theorem sync_deployed_go_sat (reads : Nat → Option AppInfo) :
    ∀ k att i, k < att →
      (∀ j, j < k → Option.map (fun a => a.tasks_running) (reads (i + j)) = some 0) →
      (∃ a, reads (i + k) = some a ∧ a.tasks_running ≠ 0) →
      sync_deployed_go reads i att = .finished (att - k) (i + k + 1) := by
  intro k
  induction k with
  | zero =>
    intro att i hk hblock hsat
    obtain ⟨a, hr, ha⟩ := hsat
    have hr' : reads i = some a := by simpa using hr
    cases att with
    | zero => omega
    | succ att => simp [sync_deployed_go, hr', ha]
  | succ k ih =>
    intro att i hk hblock hsat
    cases att with
    | zero => omega
    | succ att =>
      have h0 : Option.map (fun a => a.tasks_running) (reads i) = some 0 := by
        simpa using hblock 0 (by omega)
      cases hr : reads i with
      | none => rw [hr] at h0; simp at h0
      | some a =>
        have ha : a.tasks_running = 0 := by rw [hr] at h0; simpa using h0
        have step : sync_deployed_go reads i (att + 1) = sync_deployed_go reads (i + 1) att := by
          simp [sync_deployed_go, hr, ha]
        have hblock' : ∀ j, j < k →
            Option.map (fun a => a.tasks_running) (reads (i + 1 + j)) = some 0 := by
          intro j hj
          have := hblock (j + 1) (by omega)
          rwa [show i + (j + 1) = i + 1 + j from by omega] at this
        have hsat' : ∃ a, reads (i + 1 + k) = some a ∧ a.tasks_running ≠ 0 := by
          obtain ⟨a', hr', ha'⟩ := hsat
          exact ⟨a', by rwa [show i + 1 + k = i + (k + 1) from by omega], ha'⟩
        rw [step, ih att (i + 1) (by omega) hblock' hsat']
        congr 1 <;> omega

theorem sync_absent_go_sat (reads : Nat → Option AppInfo) :
    ∀ k att i, k < att →
      (∀ j, j < k → (reads (i + j)).isSome = true) →
      reads (i + k) = none →
      sync_absent_go reads i att = .finished (att - k) (i + k + 1) := by
  intro k
  induction k with
  | zero =>
    intro att i hk hblock hsat
    have hr : reads i = none := by simpa using hsat
    cases att with
    | zero => omega
    | succ att => simp [sync_absent_go, hr]
  | succ k ih =>
    intro att i hk hblock hsat
    cases att with
    | zero => omega
    | succ att =>
      have h0 : (reads i).isSome = true := by simpa using hblock 0 (by omega)
      have step : sync_absent_go reads i (att + 1) = sync_absent_go reads (i + 1) att := by
        simp [sync_absent_go, h0]
      have hblock' : ∀ j, j < k → (reads (i + 1 + j)).isSome = true := by
        intro j hj
        have := hblock (j + 1) (by omega)
        rwa [show i + (j + 1) = i + 1 + j from by omega] at this
      have hsat' : reads (i + 1 + k) = none := by
        rwa [show i + 1 + k = i + (k + 1) from by omega]
      rw [step, ih att (i + 1) (by omega) hblock' hsat']
      congr 1 <;> omega

theorem sync_deployed_go_crash (reads : Nat → Option AppInfo) :
    ∀ k att i, k ≤ att →
      (∀ j, j < k → Option.map (fun a => a.tasks_running) (reads (i + j)) = some 0) →
      reads (i + k) = none →
      sync_deployed_go reads i att = .crashed (i + k + 1) := by
  intro k
  induction k with
  | zero =>
    intro att i hk hblock hnone
    have hr : reads i = none := by simpa using hnone
    cases att with
    | zero => simp [sync_deployed_go, hr]
    | succ att => simp [sync_deployed_go, hr]
  | succ k ih =>
    intro att i hk hblock hnone
    cases att with
    | zero => omega
    | succ att =>
      have h0 : Option.map (fun a => a.tasks_running) (reads i) = some 0 := by
        simpa using hblock 0 (by omega)
      cases hr : reads i with
      | none => rw [hr] at h0; simp at h0
      | some a =>
        have ha : a.tasks_running = 0 := by rw [hr] at h0; simpa using h0
        have step : sync_deployed_go reads i (att + 1) = sync_deployed_go reads (i + 1) att := by
          simp [sync_deployed_go, hr, ha]
        have hblock' : ∀ j, j < k →
            Option.map (fun a => a.tasks_running) (reads (i + 1 + j)) = some 0 := by
          intro j hj
          have := hblock (j + 1) (by omega)
          rwa [show i + (j + 1) = i + 1 + j from by omega] at this
        have hnone' : reads (i + 1 + k) = none := by
          rwa [show i + 1 + k = i + (k + 1) from by omega]
        rw [step, ih att (i + 1) (by omega) hblock' hnone']
        congr 1
        omega

/-!
### `json.dumps(obj, sort_keys=True, indent=4, separators=('', ': '))`

Used by `diff_app` for the textual renderings.  With `indent=4` every item is
placed on its own line; the item separator is the empty string (so no commas),
the key separator is `": "`, and `sort_keys=True` emits object entries in
ascending key order.  (The embedding renders each entry first and then sorts
the rendered entries by key — rendering is position-independent, so this
equals Python's sort-then-render.  String escaping and float formatting are
not modelled; the rendered documents need neither.)
-/

def spaces (n : Nat) : String := String.mk (List.replicate n ' ')

/-- A JSON string literal (escaping not modelled). -/
def quoteStr (s : String) : String := "\"" ++ s ++ "\""

/-- A JSON number (`repr` of a Python int; only integral values appear). -/
def renderNum (q : Rat) : String := if q.den = 1 then toString q.num else toString q

/-- Ascending key order on rendered entries (`sort_keys=True`). -/
def keyStrR : String × String → String × String → Prop := fun p q => cmpLe strCmp p.1 q.1

instance : DecidableRel keyStrR := fun p q =>
  inferInstanceAs (Decidable (strCmp p.1 q.1 ≠ .gt))

def sortByKeyStr (l : List (String × String)) : List (String × String) :=
  List.insertionSort keyStrR l

mutual

def dumps : Json → Nat → String
  | .null, _ => "null"
  | .bool b, _ => if b then "true" else "false"
  | .num q, _ => renderNum q
  | .str s, _ => quoteStr s
  | .arr [], _ => "[]"
  | .arr (x :: xs), level =>
    "[\n" ++ String.intercalate "\n" (dumpsItems (x :: xs) (level + 1)) ++
      "\n" ++ spaces (4 * level) ++ "]"
  | .obj [], _ => "\x7b\x7d"
  | .obj (kv :: kvs), level =>
    "\x7b\n" ++
      String.intercalate "\n"
        ((sortByKeyStr (dumpsEntries (kv :: kvs) (level + 1))).map
          (fun p => spaces (4 * (level + 1)) ++ quoteStr p.1 ++ ": " ++ p.2)) ++
      "\n" ++ spaces (4 * level) ++ "\x7d"
termination_by structural j => j

def dumpsItems : List Json → Nat → List String
  | [], _ => []
  | x :: xs, level => (spaces (4 * level) ++ dumps x level) :: dumpsItems xs level
termination_by structural xs => xs

def dumpsEntries : List (String × Json) → Nat → List (String × String)
  | [], _ => []
  | (k, v) :: kvs, level => (k, dumps v level) :: dumpsEntries kvs level
termination_by structural kvs => kvs

end

/-!
### The reconciliation actions

`module.exit_json` / `module.fail_json` terminate the invocation; they are
modelled as the `Exit` outcome of an action.  The Marathon client is modelled
by the current scheduler state `s : Option AppInfo` (`none` is Absence) plus
the write calls issued; within one action the state only changes through
those calls ("no external interference").  HTTP errors of accepted calls
(`MarathonHttpError`) are not modelled: the claims under verification concern
accepted requests.
-/

/-- A write call issued against the scheduler. -/
inductive Call where
  | create (spec : Json)
  | update (spec : Json)
  | delete (force : Bool)
deriving DecidableEq

/-- How an action terminates. -/
inductive Exit where
  | exited (changed : Bool) (meta : Json)
  | exitedDiff (changed : Bool) (metaStr : String) (before after : String)
  | failed (msg : String)
  | raised (msg : String)
  | crashed
deriving DecidableEq

/-- The `changed` flag reported by `module.exit_json`, when one is reported. -/
def Exit.changedFlag : Exit → Option Bool
  | .exited c _ => some c
  | .exitedDiff c _ _ _ => some c
  | _ => none

/-- Outcome of one reconciliation action: how it exited, the scheduler state
it leaves behind, and the write calls it issued (in order). -/
structure StepResult where
  exit : Exit
  state : Option AppInfo
  calls : List Call
deriving DecidableEq

/-- `_fail_if_not_running`'s message. -/
def fail_if_not_running_msg (appid uri : String) : String :=
  "Application with id " ++ appid ++ " could not be found on " ++ uri

/-- `_fail_if_running`'s message (the trailing rendering of the client object
is modelled by the document rendering). -/
def fail_if_running_msg (appid uri info : String) : String :=
  "Application " ++ appid ++ " on " ++ uri ++ " exists: " ++ info

/-- Intermediate result of `create_app`, which returns a `(json, changed)`
pair to its caller unless it terminated the invocation first. -/
inductive CreateOut where
  | aborted (e : Exit)
  | returned (ret : Json) (changed : Bool)

/-- `MarathonAppManager.create_app`: `_fail_if_running`; issue the create
call (the scheduler materializes the spec as `mat spec`); wait for
`APP_DEPLOYED` with the default budget of 60 attempts (polling the unchanged
post-create state); re-read and return `(app.to_json(), True)`. -/
def create_app (appid uri : String) (mat : Json → AppInfo) (json_definition : Json)
    (s : Option AppInfo) : CreateOut × Option AppInfo × List Call :=
  match s with
  | some info =>
    (.aborted (.failed (fail_if_running_msg appid uri (dumps info.doc 0))), s, [])
  | none =>
    let s' : Option AppInfo := some (mat json_definition)
    match (sync_app_status (fun _ => s') APP_DEPLOYED 60).1 with
    | .ok =>
      match s' with
      | some info => (.returned info.doc true, s', [.create json_definition])
      | none => (.aborted .crashed, s', [.create json_definition])
    | .timeout m => (.aborted (.raised m), s', [.create json_definition])
    | .noneDeref => (.aborted .crashed, s', [.create json_definition])

/-- `MarathonAppManager.create_if_not_exists` (the `present` goal). -/
def create_if_not_exists (appid uri : String) (mat : Json → AppInfo) (json_definition : Json)
    (s : Option AppInfo) : StepResult :=
  match s with
  | none =>
    match create_app appid uri mat json_definition s with
    | (.returned ret changed, s', calls) => ⟨.exited changed ret, s', calls⟩
    | (.aborted e, s', calls) => ⟨e, s', calls⟩
  | some info => ⟨.exited false info.doc, s, []⟩

/-- `MarathonAppManager.update_app` (the `updated` goal).  `normalize` models
the external client library round-trip
`json.loads(MarathonApp.from_json(json.loads(defn)).to_json())` applied to the
submitted definition; `attrs` the library's `UPDATE_OK_ATTRIBUTES`; `upd` the
scheduler's (unobserved) state transition on an accepted update call. -/
def update_app (attrs : List String) (normalize : Json → Json) (appid uri : String)
    (mat : Json → AppInfo) (upd : Json → Option AppInfo → Option AppInfo)
    (json_definition : Json) (s : Option AppInfo) : StepResult :=
  match s with
  | none =>
    match create_app appid uri mat json_definition s with
    | (.returned ret changed, s', calls) => ⟨.exited changed ret, s', calls⟩
    | (.aborted e, s', calls) => ⟨e, s', calls⟩
  | some info =>
    -- `_fail_if_not_running` re-reads the unchanged state: no failure here.
    let app_object_json := info.doc
    let app_config_object_json := normalize json_definition
    if compare_json_deployments attrs app_object_json app_config_object_json then
      ⟨.exited false info.doc, s, []⟩
    else
      ⟨.exited true info.doc, upd json_definition s, [.update json_definition]⟩

/-- `MarathonAppManager.diff_app` (the `test` goal): read, render both sides
(`json.loads('{}')` when absent), report `changed=True` with
`meta=json.dumps(None)` and the diff; no write call is ever issued. -/
def diff_app (json_definition : Json) (s : Option AppInfo) : StepResult :=
  let deployed_app_json_obj : Json :=
    match s with
    | some a => a.doc
    | none => .obj []
  let string_old := dumps deployed_app_json_obj 0
  let string_new := dumps json_definition 0
  ⟨.exitedDiff true "null" string_old string_new, s, []⟩

/-!
### Example documents shared by the concrete instances below
-/

def exWeb0 : Json := .obj [("id", .str "web"), ("instances", .num 0)]

def exWeb1 : Json := .obj [("id", .str "web"), ("instances", .num 1)]

def exWeb2 : Json := .obj [("id", .str "web"), ("instances", .num 2)]

/-- A document whose docker port mapping carries `servicePort: 0` (the falsy
auto-assignment idiom). -/
def exMask0 : Json :=
  .obj [("id", .str "web"), ("container", .obj [("docker", .obj [("portMappings",
    .arr [.obj [("containerPort", .num 80), ("servicePort", .num 0)]])])])]

/-- The same document with a scheduler-assigned `servicePort: 31000`. -/
def exMask31000 : Json :=
  .obj [("id", .str "web"), ("container", .obj [("docker", .obj [("portMappings",
    .arr [.obj [("containerPort", .num 80), ("servicePort", .num 31000)]])])])]

/-- The same document with no `servicePort` at all. -/
def exMaskNone : Json :=
  .obj [("id", .str "web"), ("container", .obj [("docker", .obj [("portMappings",
    .arr [.obj [("containerPort", .num 80)]])])])]

/-- C1, counterexample to the claim as stated: `instances` is present in both
documents (`0` vs `2`) and the canonical values differ, yet
`_compare_json_deployments` returns `True`, because `d1.get(item)` tests
truthiness, not presence, and `0` is falsy. -/
theorem claim_C1_cex :
    (Json.get exWeb0 "instances").isSome = true
    ∧ (Json.get exWeb2 "instances").isSome = true
    ∧ ordered (jgetD exWeb0 "instances") ≠ ordered (jgetD exWeb2 "instances")
    ∧ compare_json_deployments UPDATE_OK_ATTRIBUTES exWeb0 exWeb2 = true := by
  refine ⟨by decide, by decide, by decide, by decide⟩

/-- C1 (amended): for every update-relevant attribute that is *truthy* in both
masked documents, divergent canonical values force `equivalent = false`; an
attribute absent from either masked document never causes `false` by itself;
and the concrete `instances 1 vs 2` scenario issues exactly one `update` call
with `changed=true`, returning the pre-update live document. -/
theorem claim_C1
    (attrs : List String) (d1 d2 : Json) (item : String)
    (hmem : item ∈ attrs)
    (h1 : truthyOpt (Json.get (clean_json_objects_for_update d1) item) = true)
    (h2 : truthyOpt (Json.get (clean_json_objects_for_update d2) item) = true)
    (hne : ordered (jgetD (clean_json_objects_for_update d1) item)
         ≠ ordered (jgetD (clean_json_objects_for_update d2) item))
    (d1' d2' : Json) (item' : String)
    (habs : Json.get (clean_json_objects_for_update d1') item' = none
          ∨ Json.get (clean_json_objects_for_update d2') item' = none) :
    compare_json_deployments attrs d1 d2 = false
    ∧ compare_loop (clean_json_objects_for_update d1')
        (clean_json_objects_for_update d2') [item'] = true
    ∧ update_app UPDATE_OK_ATTRIBUTES (fun j => j) "web" "http://marathon-node:8080"
        (fun j => ⟨j, 1⟩) (fun _ s => s) exWeb1 (some ⟨exWeb2, 1⟩)
      = ⟨.exited true exWeb2, some ⟨exWeb2, 1⟩, [.update exWeb1]⟩ := by
  refine ⟨?_, ?_, by decide⟩
  · unfold compare_json_deployments
    exact compare_loop_false attrs hmem h1 h2 hne
  · rcases habs with h | h
    · simp [compare_loop, h, truthyOpt]
    · simp [compare_loop, h, truthyOpt]

theorem claim_C1_witness :
    "instances" ∈ UPDATE_OK_ATTRIBUTES
    ∧ truthyOpt (Json.get (clean_json_objects_for_update exWeb1) "instances") = true
    ∧ truthyOpt (Json.get (clean_json_objects_for_update exWeb2) "instances") = true
    ∧ ordered (jgetD (clean_json_objects_for_update exWeb1) "instances")
      ≠ ordered (jgetD (clean_json_objects_for_update exWeb2) "instances")
    ∧ (Json.get (clean_json_objects_for_update (Json.obj [])) "instances" = none
       ∨ Json.get (clean_json_objects_for_update exWeb2) "instances" = none)
    ∧ (compare_json_deployments UPDATE_OK_ATTRIBUTES exWeb1 exWeb2 = false
       ∧ compare_loop (clean_json_objects_for_update (Json.obj []))
           (clean_json_objects_for_update exWeb2) ["instances"] = true
       ∧ update_app UPDATE_OK_ATTRIBUTES (fun j => j) "web" "http://marathon-node:8080"
           (fun j => ⟨j, 1⟩) (fun _ s => s) exWeb1 (some ⟨exWeb2, 1⟩)
         = ⟨.exited true exWeb2, some ⟨exWeb2, 1⟩, [.update exWeb1]⟩) :=
  ⟨by decide, by decide, by decide, by decide, Or.inl (by decide),
   claim_C1 UPDATE_OK_ATTRIBUTES exWeb1 exWeb2 "instances" (by decide) (by decide)
     (by decide) (by decide) (Json.obj []) exWeb2 "instances" (Or.inl (by decide))⟩

/-- C2, counterexample to the claim as stated: the two documents differ only
in the masked `servicePort` field (`0` vs `31000`), yet `equivalent` is
`false` in both directions, because `if match.get('servicePort')` skips the
falsy value `0` instead of deleting it. -/
theorem claim_C2_cex :
    compare_json_deployments UPDATE_OK_ATTRIBUTES exMask0 exMask31000 = false
    ∧ compare_json_deployments UPDATE_OK_ATTRIBUTES exMask31000 exMask0 = false := by
  refine ⟨by decide, by decide⟩

/-- C2 (amended): for documents that agree after the masking pass — in
particular documents differing only in *truthy* `servicePort` entries under
the docker port-mapping list — `equivalent` returns `true` symmetrically, and
the `updated` goal issues no write call and reports `changed=false` with the
live document. -/
theorem claim_C2 (attrs : List String) (normalize : Json → Json) (appid uri : String)
    (mat : Json → AppInfo) (upd : Json → Option AppInfo → Option AppInfo)
    (json_definition : Json) (info : AppInfo)
    (h : clean_json_objects_for_update info.doc
       = clean_json_objects_for_update (normalize json_definition)) :
    compare_json_deployments attrs info.doc (normalize json_definition) = true
    ∧ compare_json_deployments attrs (normalize json_definition) info.doc = true
    ∧ update_app attrs normalize appid uri mat upd json_definition (some info)
      = ⟨.exited false info.doc, some info, []⟩ := by
  have hcmp : compare_json_deployments attrs info.doc (normalize json_definition) = true := by
    unfold compare_json_deployments
    rw [h]
    exact compare_loop_self _ attrs
  refine ⟨hcmp, ?_, ?_⟩
  · unfold compare_json_deployments
    rw [h]
    exact compare_loop_self _ attrs
  · simp [update_app, hcmp]

theorem claim_C2_witness :
    clean_json_objects_for_update (AppInfo.mk exMask31000 1).doc
      = clean_json_objects_for_update ((fun j => j) exMaskNone)
    ∧ (compare_json_deployments UPDATE_OK_ATTRIBUTES exMask31000 exMaskNone = true
       ∧ compare_json_deployments UPDATE_OK_ATTRIBUTES exMaskNone exMask31000 = true
       ∧ update_app UPDATE_OK_ATTRIBUTES (fun j => j) "web" "http://marathon-node:8080"
           (fun j => ⟨j, 1⟩) (fun _ s => s) exMaskNone (some ⟨exMask31000, 1⟩)
         = ⟨.exited false exMask31000, some ⟨exMask31000, 1⟩, []⟩) :=
  ⟨by decide,
   claim_C2 UPDATE_OK_ATTRIBUTES (fun j => j) "web" "http://marathon-node:8080"
     (fun j => ⟨j, 1⟩) (fun _ s => s) exMaskNone ⟨exMask31000, 1⟩ (by decide)⟩

/-- C3, counterexample to the claim as stated: with an attempt budget of 2 and
a Deployed condition that is never satisfied, `_sync_app_status` performs 3
condition checks (not 2) before raising — the loop condition is evaluated,
with one more poll, even when the budget has just reached zero. -/
theorem claim_C3_cex :
    sync_app_status (fun _ => some ⟨Json.obj [], 0⟩) APP_DEPLOYED 2
      = (.timeout (sync_error_message APP_DEPLOYED), 3)
    ∧ (3 : Nat) ≠ 2 := by
  refine ⟨by decide, by decide⟩

/-- C3 (amended): if the awaited condition (Deployed or Absent) is never
satisfied, `_sync_app_status` with budget `N` performs exactly `N + 1`
condition checks and then raises; if the condition is first satisfied at
check `k` while budget remains (`k < N`), no error is raised. -/
theorem claim_C3
    (reads1 : Nat → Option AppInfo) (N1 : Nat)
    (h1 : ∀ i, Option.map (fun a => a.tasks_running) (reads1 i) = some 0)
    (reads2 : Nat → Option AppInfo) (N2 : Nat)
    (h2 : ∀ i, (reads2 i).isSome = true)
    (reads3 : Nat → Option AppInfo) (N3 k3 : Nat)
    (hk3 : k3 < N3)
    (h3block : ∀ j, j < k3 → Option.map (fun a => a.tasks_running) (reads3 j) = some 0)
    (h3sat : ∃ a, reads3 k3 = some a ∧ a.tasks_running ≠ 0)
    (reads4 : Nat → Option AppInfo) (N4 k4 : Nat)
    (hk4 : k4 < N4)
    (h4block : ∀ j, j < k4 → (reads4 j).isSome = true)
    (h4sat : reads4 k4 = none) :
    sync_app_status reads1 APP_DEPLOYED N1 = (.timeout (sync_error_message APP_DEPLOYED), N1 + 1)
    ∧ sync_app_status reads2 APP_NOT_PRESENT N2
      = (.timeout (sync_error_message APP_NOT_PRESENT), N2 + 1)
    ∧ sync_app_status reads3 APP_DEPLOYED N3 = (.ok, k3 + 1)
    ∧ sync_app_status reads4 APP_NOT_PRESENT N4 = (.ok, k4 + 1) := by
  refine ⟨?_, ?_, ?_, ?_⟩
  · have hgo := sync_deployed_go_unsat reads1 h1 N1 0
    simp [sync_app_status, APP_DEPLOYED, APP_NOT_PRESENT, hgo]
  · have hgo := sync_absent_go_unsat reads2 h2 N2 0
    simp [sync_app_status, APP_DEPLOYED, APP_NOT_PRESENT, hgo]
  · have hgo := sync_deployed_go_sat reads3 k3 N3 0 hk3
      (fun j hj => by simpa using h3block j hj) (by simpa using h3sat)
    simp [sync_app_status, APP_DEPLOYED, APP_NOT_PRESENT, hgo,
      Nat.sub_ne_zero_of_lt hk3]
  · have hgo := sync_absent_go_sat reads4 k4 N4 0 hk4
      (fun j hj => by simpa using h4block j hj) (by simpa using h4sat)
    simp [sync_app_status, APP_DEPLOYED, APP_NOT_PRESENT, hgo,
      Nat.sub_ne_zero_of_lt hk4]

theorem claim_C3_witness :
    (∀ i : Nat, Option.map (fun a => a.tasks_running)
        ((fun _ : Nat => some (AppInfo.mk (Json.obj []) 0)) i) = some 0)
    ∧ (∀ i : Nat, ((fun _ : Nat => some (AppInfo.mk (Json.obj []) 1)) i).isSome = true)
    ∧ (1 : Nat) < 60
    ∧ (∀ j, j < 1 → Option.map (fun a => a.tasks_running)
        ((fun i : Nat => if i = 0 then some (AppInfo.mk (Json.obj []) 0)
                   else some (AppInfo.mk (Json.obj []) 1)) j) = some 0)
    ∧ (∃ a, (fun i : Nat => if i = 0 then some (AppInfo.mk (Json.obj []) 0)
                      else some (AppInfo.mk (Json.obj []) 1)) 1 = some a
          ∧ a.tasks_running ≠ 0)
    ∧ (1 : Nat) < 3
    ∧ (∀ j, j < 1 → ((fun i : Nat => if i = 0 then some (AppInfo.mk (Json.obj []) 1)
                               else none) j).isSome = true)
    ∧ (fun i : Nat => if i = 0 then some (AppInfo.mk (Json.obj []) 1) else none) 1 = none
    ∧ (sync_app_status (fun _ => some (AppInfo.mk (Json.obj []) 0)) APP_DEPLOYED 2
        = (.timeout (sync_error_message APP_DEPLOYED), 2 + 1)
       ∧ sync_app_status (fun _ => some (AppInfo.mk (Json.obj []) 1)) APP_NOT_PRESENT 1
        = (.timeout (sync_error_message APP_NOT_PRESENT), 1 + 1)
       ∧ sync_app_status (fun i : Nat => if i = 0 then some (AppInfo.mk (Json.obj []) 0)
            else some (AppInfo.mk (Json.obj []) 1)) APP_DEPLOYED 60 = (.ok, 1 + 1)
       ∧ sync_app_status (fun i : Nat => if i = 0 then some (AppInfo.mk (Json.obj []) 1)
            else none) APP_NOT_PRESENT 3 = (.ok, 1 + 1)) :=
  ⟨fun _ => rfl, fun _ => rfl, by decide,
   fun j hj => by
     have : j = 0 := by omega
     subst this; rfl,
   ⟨⟨Json.obj [], 1⟩, rfl, by decide⟩, by decide,
   fun j hj => by
     have : j = 0 := by omega
     subst this; rfl,
   rfl,
   claim_C3 (fun _ => some ⟨Json.obj [], 0⟩) 2 (fun _ => rfl)
     (fun _ => some ⟨Json.obj [], 1⟩) 1 (fun _ => rfl)
     (fun i : Nat => if i = 0 then some ⟨Json.obj [], 0⟩ else some ⟨Json.obj [], 1⟩) 60 1
     (by decide)
     (fun j hj => by
       have : j = 0 := by omega
       subst this; rfl)
     ⟨⟨Json.obj [], 1⟩, rfl, by decide⟩
     (fun i : Nat => if i = 0 then some ⟨Json.obj [], 1⟩ else none) 3 1
     (by decide)
     (fun j hj => by
       have : j = 0 := by omega
       subst this; rfl)
     rfl⟩

/-- C4, counterexample to the claim as stated: awaiting Deployed for the
application whose id is `web`, the exhausted budget raises a message that does
not contain the AppID `web` (nor any endpoint) — only the numeric status
code. -/
theorem claim_C4_cex :
    (sync_app_status (fun _ => some ⟨Json.obj [("id", Json.str "web")], 0⟩)
        APP_DEPLOYED 3).1
      = .timeout (sync_error_message APP_DEPLOYED)
    ∧ ¬ ("web".data <:+: (sync_error_message APP_DEPLOYED).data) := by
  refine ⟨by decide, by decide⟩

theorem sync_timeout_msg (reads : Nat → Option AppInfo) (status N : Nat) (msg : String)
    (h : (sync_app_status reads status N).1 = .timeout msg) :
    msg = sync_error_message status := by
  unfold sync_app_status at h
  cases hr : (if status = APP_DEPLOYED then sync_deployed_go reads 0 N
      else if status = APP_NOT_PRESENT then sync_absent_go reads 0 N
      else SyncRes.finished N 0) with
  | crashed c =>
    rw [hr] at h
    simp at h
  | finished att c =>
    rw [hr] at h
    by_cases ha : att = 0
    · subst ha
      simp at h
      exact h.symm
    · simp [ha] at h

/-- C4 (amended): the error raised on an exhausted attempt budget is the fixed
string `"Error while waiting for application to be in state <status>"`: it
names the target condition only through its numeric status code and is
independent of the AppID (two waits against different applications raise the
identical message). -/
theorem claim_C4 (reads reads' : Nat → Option AppInfo) (N N' status : Nat)
    (msg msg' : String)
    (h : (sync_app_status reads status N).1 = .timeout msg)
    (h' : (sync_app_status reads' status N').1 = .timeout msg') :
    msg = sync_error_message status
    ∧ (toString status).data <:+: msg.data
    ∧ msg = msg' := by
  have e := sync_timeout_msg reads status N msg h
  have e' := sync_timeout_msg reads' status N' msg' h'
  refine ⟨e, ?_, e.trans e'.symm⟩
  rw [e]
  exact ⟨("Error while waiting for application to be in state ").data, [],
    by simp [sync_error_message]⟩

theorem claim_C4_witness :
    (sync_app_status (fun _ => some (AppInfo.mk (Json.obj [("id", Json.str "web")]) 0))
        APP_DEPLOYED 1).1 = .timeout (sync_error_message APP_DEPLOYED)
    ∧ (sync_app_status (fun _ => some (AppInfo.mk (Json.obj [("id", Json.str "api")]) 0))
        APP_DEPLOYED 2).1 = .timeout (sync_error_message APP_DEPLOYED)
    ∧ (sync_error_message APP_DEPLOYED = sync_error_message APP_DEPLOYED
       ∧ (toString APP_DEPLOYED).data <:+: (sync_error_message APP_DEPLOYED).data
       ∧ sync_error_message APP_DEPLOYED = sync_error_message APP_DEPLOYED) :=
  ⟨by decide, by decide,
   claim_C4 (fun _ => some ⟨Json.obj [("id", Json.str "web")], 0⟩)
     (fun _ => some ⟨Json.obj [("id", Json.str "api")], 0⟩) 1 2 APP_DEPLOYED
     (sync_error_message APP_DEPLOYED) (sync_error_message APP_DEPLOYED)
     (by decide) (by decide)⟩

/-- C5: two documents whose only difference is the ordering of keys in
mappings or of elements in otherwise structurally-identical sequences have
the same canonical form under `_ordered`. -/
theorem claim_C5 (a b : Json) (h : OrderEq a b) : ordered a = ordered b :=
  orderEq_ordered a b h

def exOrdA : Json := .obj [("a", .num 1), ("b", .arr [.num 1, .num 2])]

def exOrdB : Json := .obj [("b", .arr [.num 2, .num 1]), ("a", .num 1)]

theorem claim_C5_witness :
    OrderEq exOrdA exOrdB ∧ ordered exOrdA = ordered exOrdB := by
  have h : OrderEq exOrdA exOrdB := by
    refine ⟨[("a", .num 1), ("b", .arr [.num 2, .num 1])], ?_, by decide⟩
    refine ⟨rfl, rfl, rfl, ?_, trivial⟩
    exact ⟨[.num 1, .num 2], ⟨rfl, rfl, trivial⟩, by decide⟩
  exact ⟨h, claim_C5 exOrdA exOrdB h⟩

/-- C6: the `present` goal is idempotent.  Starting from Absence (and a
scheduler that runs at least one task for the created application, so the
deploy wait succeeds), `create_if_not_exists` creates the application with
exactly one `create` call and `changed=true`; invoked again on the resulting
state it issues zero write calls, reports `changed=false`, and returns the
live document. -/
theorem claim_C6 (appid uri : String) (mat : Json → AppInfo) (spec : Json)
    (h : (mat spec).tasks_running ≠ 0) :
    create_if_not_exists appid uri mat spec none
      = ⟨.exited true (mat spec).doc, some (mat spec), [.create spec]⟩
    ∧ create_if_not_exists appid uri mat spec
        (create_if_not_exists appid uri mat spec none).state
      = ⟨.exited false (mat spec).doc, some (mat spec), []⟩ := by
  have hgo : sync_deployed_go (fun _ => some (mat spec)) 0 60 = .finished 60 1 := by
    have := sync_deployed_go_sat (fun _ => some (mat spec)) 0 60 0 (by omega)
      (fun j hj => absurd hj (Nat.not_lt_zero j)) ⟨mat spec, rfl, h⟩
    simpa using this
  have hsync : sync_app_status (fun _ => some (mat spec)) APP_DEPLOYED 60 = (.ok, 1) := by
    simp [sync_app_status, APP_DEPLOYED, hgo]
  have h1 : create_if_not_exists appid uri mat spec none
      = ⟨.exited true (mat spec).doc, some (mat spec), [.create spec]⟩ := by
    simp [create_if_not_exists, create_app, hsync]
  refine ⟨h1, ?_⟩
  rw [h1]
  simp [create_if_not_exists]

theorem claim_C6_witness :
    ((fun j => AppInfo.mk j 1) exWeb1).tasks_running ≠ 0
    ∧ (create_if_not_exists "web" "http://marathon-node:8080" (fun j => AppInfo.mk j 1)
         exWeb1 none
       = ⟨.exited true ((fun j => AppInfo.mk j 1) exWeb1).doc,
          some ((fun j => AppInfo.mk j 1) exWeb1), [.create exWeb1]⟩
       ∧ create_if_not_exists "web" "http://marathon-node:8080" (fun j => AppInfo.mk j 1)
           exWeb1
           (create_if_not_exists "web" "http://marathon-node:8080" (fun j => AppInfo.mk j 1)
             exWeb1 none).state
       = ⟨.exited false ((fun j => AppInfo.mk j 1) exWeb1).doc,
          some ((fun j => AppInfo.mk j 1) exWeb1), []⟩) :=
  ⟨by decide,
   claim_C6 "web" "http://marathon-node:8080" (fun j => AppInfo.mk j 1) exWeb1 (by decide)⟩

/-- C7: the `diff` goal never mutates remote state — no create, update or
delete call is issued and the scheduler state is left untouched, for any
desired document and any live state — and its result carries the two
canonicalized textual renderings (before = live, or the empty document when
absent; after = desired). -/
theorem claim_C7 (json_definition : Json) (s : Option AppInfo) :
    (diff_app json_definition s).calls = []
    ∧ (diff_app json_definition s).state = s
    ∧ (diff_app json_definition s).exit
      = .exitedDiff true "null"
          (dumps (match s with | some a => a.doc | none => Json.obj []) 0)
          (dumps json_definition 0) :=
  ⟨rfl, rfl, rfl⟩

/-- C8: while awaiting the Deployed condition, every poll dereferences
`.tasks_running` of the read result without guarding for Absence; if a read
yields Absence at any point of the wait — even after the budget is exhausted —
the loop fails with the unguarded null-access error, not with the timeout
error or an ordinary outcome. -/
theorem claim_C8 (reads : Nat → Option AppInfo) (N k : Nat)
    (hk : k ≤ N)
    (hblock : ∀ j, j < k → Option.map (fun a => a.tasks_running) (reads j) = some 0)
    (hnone : reads k = none) :
    sync_app_status reads APP_DEPLOYED N = (.noneDeref, k + 1)
    ∧ (∀ m : String, (SyncOutcome.noneDeref : SyncOutcome) ≠ .timeout m)
    ∧ (SyncOutcome.noneDeref : SyncOutcome) ≠ .ok := by
  have hcrash := sync_deployed_go_crash reads k N 0 hk
    (fun j hj => by simpa using hblock j hj) (by simpa using hnone)
  refine ⟨?_, fun m => by simp, by simp⟩
  simp [sync_app_status, APP_DEPLOYED, hcrash]

theorem claim_C8_witness :
    (1 : Nat) ≤ 5
    ∧ (∀ j, j < 1 → Option.map (fun a => a.tasks_running)
        ((fun i : Nat => if i = 0 then some (AppInfo.mk (Json.obj []) 0) else none) j)
          = some 0)
    ∧ (fun i : Nat => if i = 0 then some (AppInfo.mk (Json.obj []) 0) else none) 1 = none
    ∧ (sync_app_status
         (fun i : Nat => if i = 0 then some (AppInfo.mk (Json.obj []) 0) else none)
         APP_DEPLOYED 5 = (.noneDeref, 1 + 1)
       ∧ (∀ m : String, (SyncOutcome.noneDeref : SyncOutcome) ≠ .timeout m)
       ∧ (SyncOutcome.noneDeref : SyncOutcome) ≠ .ok) :=
  ⟨by decide,
   fun j hj => by
     have : j = 0 := by omega
     subst this; rfl,
   rfl,
   claim_C8 (fun i : Nat => if i = 0 then some (AppInfo.mk (Json.obj []) 0) else none) 5 1
     (by decide)
     (fun j hj => by
       have : j = 0 := by omega
       subst this; rfl)
     rfl⟩

/-- C9: when the `updated` goal detects a difference and issues an update
call, the document it reports back is the pre-update live document — not the
newly submitted specification and not a re-read of the post-update state
(the reported document does not depend on the scheduler's update transition
`upd`). -/
theorem claim_C9 (attrs : List String) (normalize : Json → Json) (appid uri : String)
    (mat : Json → AppInfo) (upd : Json → Option AppInfo → Option AppInfo)
    (json_definition : Json) (info : AppInfo)
    (h : compare_json_deployments attrs info.doc (normalize json_definition) = false) :
    update_app attrs normalize appid uri mat upd json_definition (some info)
      = ⟨.exited true info.doc, upd json_definition (some info), [.update json_definition]⟩ := by
  simp [update_app, h]

theorem claim_C9_witness :
    compare_json_deployments UPDATE_OK_ATTRIBUTES (AppInfo.mk exWeb2 1).doc
      ((fun j => j) exWeb1) = false
    ∧ update_app UPDATE_OK_ATTRIBUTES (fun j => j) "web" "http://marathon-node:8080"
        (fun j => AppInfo.mk j 1) (fun spec _ => some (AppInfo.mk spec 0)) exWeb1
        (some (AppInfo.mk exWeb2 1))
      = ⟨.exited true (AppInfo.mk exWeb2 1).doc,
         (fun spec _ => some (AppInfo.mk spec 0)) exWeb1 (some (AppInfo.mk exWeb2 1)),
         [.update exWeb1]⟩ :=
  ⟨by decide,
   claim_C9 UPDATE_OK_ATTRIBUTES (fun j => j) "web" "http://marathon-node:8080"
     (fun j => AppInfo.mk j 1) (fun spec _ => some (AppInfo.mk spec 0)) exWeb1
     (AppInfo.mk exWeb2 1) (by decide)⟩

/-- C10: the `diff` goal reports `changed=true` on every invocation — also
when no live application exists, in which case the `before` rendering is that
of the empty document — even though no mutation has occurred. -/
theorem claim_C10 (json_definition : Json) (s : Option AppInfo) :
    (diff_app json_definition s).exit.changedFlag = some true
    ∧ (diff_app json_definition none).exit
      = .exitedDiff true "null" (dumps (Json.obj []) 0) (dumps json_definition 0)
    ∧ (diff_app json_definition none).calls = [] :=
  ⟨rfl, rfl, rfl⟩
